import Mathlib

/-!
Verification of the request-to-action dispatch engine of a local
serverless-function emulator (source: `src/lib/run-dev.js` and
`src/lib/app-helper.js`).  JavaScript runtime values are shallowly embedded
as `JsVal`; JS objects are association lists in source order, where a later
binding shadows an earlier one (mirroring JS assignment/spread order), so
`jsLookup` is last-wins.
-/

set_option maxHeartbeats 1000000

namespace AppDev

/-- JavaScript runtime values as used by the dispatch engine.  `buf` models a
Node `Buffer` (a byte array, `typeof` object, `Buffer.isBuffer` true). -/
inductive JsVal where
  | undefVal
  | null
  | bool (b : Bool)
  | num (n : Int)
  | str (s : String)
  | arr (elems : List JsVal)
  | obj (fields : List (String × JsVal))
  | buf (bytes : List Nat)

/-- A JS object: bindings in source order; a later binding wins on lookup. -/
abbrev JsObj := List (String × JsVal)

/-- Property lookup on a JS object: the latest binding of the key wins,
mirroring JS assignment order (object literals and spreads are modelled as
plain list concatenation in source order). -/
def jsLookup : JsObj → String → Option JsVal
  | [], _ => none
  | (k', v) :: rest, k =>
    match jsLookup rest k with
    | some w => some w
    | none => if k' = k then some v else none

/-- Property access `o[k]`: a missing property reads as `undefined`. -/
def jsLookupV (o : JsObj) (k : String) : JsVal :=
  (jsLookup o k).getD .undefVal

/-- JS truthiness. -/
def jsTruthy : JsVal → Bool
  | .undefVal => false
  | .null => false
  | .bool b => b
  | .num n => n != 0
  | .str s => s != ""
  | .arr _ => true
  | .obj _ => true
  | .buf _ => true

/-- Property access `v.k` on an arbitrary value: only objects expose the
engine-relevant properties; on every other value the access reads
`undefined`. -/
def jsGetV : JsVal → String → JsVal
  | .obj o, k => jsLookupV o k
  | _, _ => .undefVal

/-- The fields contributed by a JS object spread `{...v}` (and by
`Object.assign(target, v)`): objects give their fields; strings, Buffers and
arrays contribute their indexed elements; `null`, `undefined` and the other
primitives contribute nothing. -/
def spreadFields : JsVal → JsObj
  | .obj o => o
  | .buf bytes => bytes.enum.map (fun ib => (toString ib.1, JsVal.num (Int.ofNat ib.2)))
  | .str s => s.data.enum.map (fun ic => (toString ic.1, JsVal.str (String.mk [ic.2])))
  | .arr xs => xs.enum.map (fun ix => (toString ix.1, ix.2))
  | _ => []

/-- First-some choice, used to state lookup precedence across appends. -/
def optOr : Option JsVal → Option JsVal → Option JsVal
  | some v, _ => some v
  | none, y => y

/-- ASCII lower-casing of one character (`String.prototype.toLowerCase` on
the header keys the engine sees). -/
def lowerChar (c : Char) : Char :=
  if 'A' ≤ c && c ≤ 'Z' then Char.ofNat (c.toNat + 32) else c

/-- `s.toLowerCase()`. -/
def jsToLower (s : String) : String := String.mk (s.data.map lowerChar)

/-- `s.trim()`: strip leading and trailing whitespace. -/
def jsTrim (s : String) : String :=
  String.mk ((((s.data.dropWhile Char.isWhitespace).reverse).dropWhile
    Char.isWhitespace).reverse)

/-- `s.split(sep)` for a one-character separator: always returns at least
one (possibly empty) segment, exactly as in JS. -/
def splitOnChar (sep : Char) : List Char → List (List Char)
  | [] => [[]]
  | c :: cs =>
    let r := splitOnChar sep cs
    if c = sep then [] :: r
    else
      match r with
      | [] => [[c]]
      | g :: gs => (c :: g) :: gs

def strSplitOnChar (sep : Char) (s : String) : List String :=
  (splitOnChar sep s.data).map String.mk

/-- Join strings with a separator (`Array.prototype.join`). -/
def joinWith (sep : String) : List String → String
  | [] => ""
  | [x] => x
  | x :: y :: xs => x ++ sep ++ joinWith sep (y :: xs)

/-- Digits-only decimal parse. -/
def digitsToNat : List Char → Option Nat
  | [] => none
  | ds =>
    if ds.all Char.isDigit then
      some (ds.foldl (fun acc d => acc * 10 + (d.toNat - 48)) 0)
    else none

/-- Integral `Number(string)` parse (floats, exponents and radix prefixes
are outside this model; the engine only ever compares integral status
codes). -/
def strToIntOpt (s : String) : Option Int :=
  match s.data with
  | '-' :: ds => (digitsToNat ds).map (fun n => -(n : Int))
  | '+' :: ds => (digitsToNat ds).map (fun n => (n : Int))
  | ds => (digitsToNat ds).map (fun n => (n : Int))

/-- JS numeric coercion (`Number(v)`) restricted to the integral values the
engine compares; `none` models `NaN` (every comparison with it is false).
Fractional numbers are outside this model. -/
def jsToNumber : JsVal → Option Int
  | .num n => some n
  | .bool b => some (if b then 1 else 0)
  | .null => some 0
  | .str s => if jsTrim s = "" then some 0 else strToIntOpt (jsTrim s)
  | _ => none

/-- The JS comparison `v >= n` (numeric coercion; false on `NaN`). -/
def jsGE (v : JsVal) (n : Int) : Bool :=
  match jsToNumber v with
  | some m => decide (n ≤ m)
  | none => false

theorem jsLookup_append (a b : JsObj) (k : String) :
    jsLookup (a ++ b) k = optOr (jsLookup b k) (jsLookup a k) := by
  induction a with
  | nil => cases h : jsLookup b k <;> simp [jsLookup, optOr, h]
  | cons hd tl ih =>
    obtain ⟨k', v⟩ := hd
    cases h : jsLookup b k <;> cases h' : jsLookup tl k <;>
      simp [jsLookup, ih, h, h', optOr]

/-! ## The interpolator (`interpolate` in `run-dev.js`)

The source replaces, via one global regex pass, each occurrence of
`${NAME}`, `$NAME` or `{NAME}` by `props[NAME]` (empty string when absent),
except when the occurrence is guarded by a negative lookbehind and a negative
lookahead for a quote character.  The scanner below reproduces the regex
engine's left-to-right scan, alternative order, greediness of `\w+`, and the
single productive backtracking case (`$NAME` followed by a quote retries with
the run shortened by one character; the bracketed alternatives cannot
backtrack because `}` must follow the run). -/

def quoteChars : List Char := [Char.ofNat 39, Char.ofNat 34, Char.ofNat 96]

def isQuoteChar (c : Char) : Bool := quoteChars.contains c

/-- Negative lookbehind: the character before the match (if any) is not a
quote. -/
def notQuoteOpt : Option Char → Bool
  | none => true
  | some c => !(isQuoteChar c)

/-- Negative lookahead: the character after the match (if any) is not a
quote. -/
def notQuoteHead : List Char → Bool
  | [] => true
  | c :: _ => !(isQuoteChar c)

/-- `\w` of the source regex: ASCII letters, digits, underscore. -/
def isWordChar (c : Char) : Bool := c.isAlphanum || c = '_'

/-- Greedy `\w+`-style split: the maximal word-character run and the rest. -/
def wordRun : List Char → List Char × List Char
  | [] => ([], [])
  | c :: cs =>
    if isWordChar c then
      let p := wordRun cs
      (c :: p.1, p.2)
    else ([], c :: cs)

def dollarChar : Char := Char.ofNat 36
def lbraceChar : Char := Char.ofNat 123
def rbraceChar : Char := Char.ofNat 125

def lastD (l : List Char) : Char := (l.getLast?).getD ' '

/-- The `$NAME` alternative (no braces), including the one productive
backtracking case: when the character right after the maximal run is a quote,
the regex engine retries with the run shortened by one (the lookahead then
sees a word character, which is never a quote). -/
def altDollar (prev : Option Char) (rest1 : List Char) :
    Option (String × Char × List Char) :=
  if notQuoteOpt prev then
    match wordRun rest1 with
    | ([], _) => none
    | (w, rest') =>
      if notQuoteHead rest' then some (String.mk w, lastD w, rest')
      else if 2 ≤ w.length then
        some (String.mk w.dropLast, lastD w.dropLast, lastD w :: rest')
      else none
  else none

/-- Try to match one of the three regex alternatives at the current position.
Returns the captured name, the last character of the matched text (the
lookbehind context for the continued scan), and the remaining input. -/
def matchHere (prev : Option Char) (cs : List Char) :
    Option (String × Char × List Char) :=
  match cs with
  | [] => none
  | c1 :: rest1 =>
    if c1 = dollarChar then
      match rest1 with
      | [] => none
      | c2 :: rest2 =>
        if c2 = lbraceChar then
          if notQuoteOpt prev then
            match wordRun rest2 with
            | ([], _) => none
            | (w, rest') =>
              match rest' with
              | [] => none
              | c3 :: tail =>
                if c3 = rbraceChar && notQuoteHead tail then
                  some (String.mk w, rbraceChar, tail)
                else none
          else none
        else altDollar prev rest1
    else if c1 = lbraceChar then
      if notQuoteOpt prev then
        match wordRun rest1 with
        | ([], _) => none
        | (w, rest') =>
          match rest' with
          | [] => none
          | c3 :: tail =>
            if c3 = rbraceChar && notQuoteHead tail then
              some (String.mk w, rbraceChar, tail)
            else none
      else none
    else none

/-- Replacement value: `props[NAME]` when the key is present, else the empty
string (unresolved variables vanish). -/
def propsGet (props : List (String × String)) (name : String) : String :=
  match props.lookup name with
  | some v => v
  | none => ""

/-- The global-replace scan over the character list.  `fuel` only serves
termination; each step consumes at least one character, so `length + 1` fuel
never runs out. -/
def interpStr (props : List (String × String)) :
    Nat → Option Char → List Char → List Char
  | 0, _, _ => []
  | _ + 1, _, [] => []
  | fuel + 1, prev, c :: cs =>
    match matchHere prev (c :: cs) with
    | some (name, lastC, rest) =>
      (propsGet props name).data ++ interpStr props fuel (some lastC) rest
    | none => c :: interpStr props fuel (some c) cs

mutual

/-- `interpolate(valueString, props)` from `run-dev.js`: strings get the
regex replacement pass, arrays are mapped element-wise, every other value is
returned unchanged. -/
def interpolate : JsVal → List (String × String) → JsVal
  | .str s, props => .str (String.mk (interpStr props (s.data.length + 1) none s.data))
  | .arr xs, props => .arr (interpolateList xs props)
  | v, _ => v

def interpolateList : List JsVal → List (String × String) → List JsVal
  | [], _ => []
  | x :: xs, props => interpolate x props :: interpolateList xs props

end

theorem interpolateList_eq_map (xs : List JsVal) (props : List (String × String)) :
    interpolateList xs props = xs.map (interpolate · props) := by
  induction xs with
  | nil => rfl
  | cons x xs ih => simp [interpolateList, ih]

-- scratch checks (to be folded into the claim theorems)
example : interpolate (.str "${X}") [("X", "v")] = .str "v" := rfl
example : interpolate (.str "${Y}") [] = .str "" := rfl

/-! ## Raw-body transform (`bodyTransformToRaw` in `app-helper.js`) -/

/-- UTF-8 encoding of a single character (`Buffer.from(string)` byte
semantics). -/
def utf8EncodeChar (c : Char) : List Nat :=
  let n := c.toNat
  if n < 128 then [n]
  else if n < 2048 then [192 + n / 64, 128 + n % 64]
  else if n < 65536 then [224 + n / 4096, 128 + n / 64 % 64, 128 + n % 64]
  else [240 + n / 262144, 128 + n / 4096 % 64, 128 + n / 64 % 64, 128 + n % 64]

/-- UTF-8 bytes of a string. -/
def utf8Bytes (s : String) : List Nat := (s.data.map utf8EncodeChar).flatten

def base64Alphabet : List Char :=
  ("ABCDEFGHIJKLMNOPQRSTUVWXYZabcdefghijklmnopqrstuvwxyz0123456789+/").data

def base64Digit (n : Nat) : Char := base64Alphabet.getD n 'A'

/-- Standard base64 encoding with padding (`buffer.toString(base64)`). -/
def base64Encode : List Nat → String
  | [] => ""
  | [a] =>
    String.mk [base64Digit (a / 4), base64Digit (a % 4 * 16), '=', '=']
  | [a, b] =>
    String.mk [base64Digit (a / 4), base64Digit (a % 4 * 16 + b / 16),
      base64Digit (b % 16 * 4), '=']
  | a :: b :: c :: rest =>
    String.mk [base64Digit (a / 4), base64Digit (a % 4 * 16 + b / 16),
      base64Digit (b % 16 * 4 + c / 64), base64Digit (c % 64)]
      ++ base64Encode rest

/-- JSON string escaping (`JSON.stringify` on a string), covering the
engine-relevant characters: quote, backslash and ASCII controls. -/
def jsonEscapeChar (c : Char) : List Char :=
  if c = Char.ofNat 34 then [Char.ofNat 92, Char.ofNat 34]
  else if c = Char.ofNat 92 then [Char.ofNat 92, Char.ofNat 92]
  else if c = Char.ofNat 10 then [Char.ofNat 92, 'n']
  else if c = Char.ofNat 13 then [Char.ofNat 92, 'r']
  else if c = Char.ofNat 9 then [Char.ofNat 92, 't']
  else if c.toNat < 32 then
    [Char.ofNat 92, 'u', '0', '0',
      "0123456789abcdef".data.getD (c.toNat / 16) '0',
      "0123456789abcdef".data.getD (c.toNat % 16) '0']
  else [c]

def jsonQuote (s : String) : String :=
  String.mk ((Char.ofNat 34) :: (s.data.map jsonEscapeChar).flatten) ++
    String.mk [Char.ofNat 34]

def jsonStringifyBytes : List Nat → String
  | [] => ""
  | [a] => toString a
  | a :: b :: rest => toString a ++ "," ++ jsonStringifyBytes (b :: rest)

mutual

/-- `JSON.stringify` over the embedded values. `none` models the JS result
`undefined` (an `undefined` object member is omitted; an `undefined` array
element serializes as `null`).  Object keys are assumed duplicate-free here,
as they are for every value the engine serializes (parsed request bodies). -/
def jsonStringify : JsVal → Option String
  | .undefVal => none
  | .null => some "null"
  | .bool b => some (if b then "true" else "false")
  | .num n => some (toString n)
  | .str s => some (jsonQuote s)
  | .arr xs => some ("[" ++ jsonStringifyArr xs ++ "]")
  | .obj o => some ("\x7b" ++ jsonStringifyObj o ++ "\x7d")
  | .buf bytes =>
    some ("\x7b\"type\":\"Buffer\",\"data\":[" ++ jsonStringifyBytes bytes ++ "]\x7d")

def jsonStringifyArr : List JsVal → String
  | [] => ""
  | [x] => (jsonStringify x).getD "null"
  | x :: y :: xs => (jsonStringify x).getD "null" ++ "," ++ jsonStringifyArr (y :: xs)

def jsonStringifyObj : JsObj → String
  | [] => ""
  | (k, v) :: rest =>
    match jsonStringify v with
    | none => jsonStringifyObj rest
    | some vs =>
      let entry := jsonQuote k ++ ":" ++ vs
      match rest with
      | [] => entry
      | _ =>
        let tail := jsonStringifyObj rest
        if tail = "" then entry else entry ++ "," ++ tail

end

/-- `bodyTransformToRaw(body)` from `app-helper.js`: strings are
base64-encoded (UTF-8 bytes); objects that are not empty are base64-encoded
directly when they are Buffers and JSON-stringified then base64-encoded
otherwise (arrays are `typeof` object too); everything else — including
`null`, the empty object, and an empty Buffer, whose enumerable own
properties are its indices — falls through to the empty string. -/
def bodyTransformToRaw : JsVal → String
  | .str s => base64Encode (utf8Bytes s)
  | .buf bytes => if bytes = [] then "" else base64Encode bytes
  | .obj o =>
    if o.isEmpty then "" else base64Encode (utf8Bytes ((jsonStringify (.obj o)).getD ""))
  | .arr xs =>
    if xs.isEmpty then "" else base64Encode (utf8Bytes ((jsonStringify (.arr xs)).getD ""))
  | _ => ""

example : bodyTransformToRaw (.str "whisper words of wisdom") =
    "d2hpc3BlciB3b3JkcyBvZiB3aXNkb20=" := rfl

/-! ## Action and sequence definitions (the ActionConfig tree) -/

/-- An action definition from the manifest.  `annots` models the JS
`annotations` map; `web` the top-level `web` attribute. -/
structure ActionDef where
  function : String
  inputs : JsObj := []
  annots : JsObj := []
  web : JsVal := .undefVal

/-- A sequence definition: `actions` is the comma-separated list of step
names (possibly absent). -/
structure SequenceDef where
  actions : Option String := none
  web : JsVal := .undefVal

/-- One package of the manifest. -/
structure PackageDef where
  inputs : JsObj := []
  actions : List (String × ActionDef) := []
  sequences : List (String × SequenceDef) := []

/-- `actionConfig`: package name to package definition.  Config maps come
from the manifest and have unique keys, so plain first-match lookup is
used. -/
abbrev ActionConfig := List (String × PackageDef)

def lookupPackage (cfg : ActionConfig) (pkg : String) : Option PackageDef :=
  cfg.lookup pkg

/-- `actionConfig?.[packageName]?.actions[actionName]`. -/
def lookupActionDef (cfg : ActionConfig) (pkg name : String) : Option ActionDef :=
  match lookupPackage cfg pkg with
  | some p => p.actions.lookup name
  | none => none

/-- `actionConfig[packageName]?.sequences?.[name]`. -/
def lookupSequenceDef (cfg : ActionConfig) (pkg name : String) : Option SequenceDef :=
  match lookupPackage cfg pkg with
  | some p => p.sequences.lookup name
  | none => none

/-- `actionConfig?.[packageName]?.inputs`, spread as nothing when absent. -/
def packageInputs (cfg : ActionConfig) (pkg : String) : JsObj :=
  match lookupPackage cfg pkg with
  | some p => p.inputs
  | none => []

/-- The dispatch target: an action, or a sequence (`contextItem`). -/
inductive ContextItem where
  | action (a : ActionDef)
  | seq (s : SequenceDef)

/-- `web-export` annotation of the context item (`undefined` on sequences,
which carry no annotations in the manifest). -/
def itemWebExport : Option ContextItem → JsVal
  | some (.action a) => jsLookupV a.annots "web-export"
  | _ => .undefVal

/-- `web` attribute of the context item. -/
def itemWeb : Option ContextItem → JsVal
  | some (.action a) => a.web
  | some (.seq s) => s.web
  | none => .undefVal

/-- The `toBoolean` helper inside `isWebAction`:
`value !== no && value !== false-string && value !== false && value !== undefined`. -/
def toBooleanJs : JsVal → Bool
  | .str "no" => false
  | .str "false" => false
  | .bool false => false
  | .undefVal => false
  | _ => true

/-- `isWebAction(action)` from `run-dev.js`. -/
def isWebAction (item : Option ContextItem) : Bool :=
  toBooleanJs (itemWebExport item) || toBooleanJs (itemWeb item)

/-- Strict equality with the string `raw`. -/
def isRawValue : JsVal → Bool
  | .str s => s = "raw"
  | _ => false

/-- `isRawWebAction(action)` from `run-dev.js`. -/
def isRawWebAction (item : Option ContextItem) : Bool :=
  isRawValue (itemWebExport item) || isRawValue (itemWeb item)

/-! ## Process state, loader and callee behaviours -/

/-- The mutable process context the invoker snapshots and restores:
environment variables (string map, last binding wins) and the working
directory. -/
structure ProcState where
  env : List (String × String)
  cwd : String
deriving DecidableEq

/-- `process.env[k]` (last binding wins). -/
def envGet : List (String × String) → String → Option String
  | [], _ => none
  | (k', v) :: rest, k =>
    match envGet rest k with
    | some w => some w
    | none => if k' = k then some v else none

/-- `process.env[k] = v`. -/
def envSet (e : List (String × String)) (k v : String) : List (String × String) :=
  e ++ [(k, v)]

/-- `delete process.env[k]`. -/
def envDelete (e : List (String × String)) (k : String) : List (String × String) :=
  e.filter (fun p => p.1 ≠ k)

/-- Outcome of awaiting the loaded action function: a returned value, or a
thrown/rejected error. -/
inductive ExecOutcome where
  | ret (v : JsVal)
  | thrown

/-- A loaded action implementation: may read and mutate the process state. -/
def ActionFn := JsObj → ProcState → ExecOutcome × ProcState

/-- Outcome of `contextActionLoader`: the module loaded (with `main` possibly
missing, i.e. falsy), or the load threw. -/
inductive LoadOutcome where
  | loaded (fn : Option ActionFn)
  | loadError

/-- `contextActionLoader({distFolder, packageName, actionName})`: loading
executes module top-level code, so it may also mutate the process state. -/
def Loader := String → String → String → ProcState → LoadOutcome × ProcState

/-- `path.dirname` (external library): the text before the last slash, `.`
when there is no slash. -/
def dirname (p : String) : String :=
  let parts := strSplitOnChar '/' p
  if parts.length ≤ 1 then "." else joinWith "/" parts.dropLast

/-- A single-quote character, as a string. -/
def sq : String := String.mk [Char.ofNat 39]

def invalidHttpMsg : String := "Response is not valid " ++ sq ++ "message/http" ++ sq ++ "."

/-- Result of a caught execution error, and of a loaded module without a
usable `main` export: `{400, {error: "Response is not valid message/http."}}`
(with the inner quotes of the source message). -/
def invalidHttpResult : JsObj :=
  [("statusCode", .num 400), ("body", .obj [("error", .str invalidHttpMsg)])]

/-- Result when `contextActionLoader` throws. -/
def loadErrorResult (actionName : String) : JsObj :=
  [("statusCode", .num 400),
   ("body", .obj [("error", .str (invalidHttpMsg ++ " " ++ actionName ++
     " action not found, or does not export main"))])]

/-! ## The auth gate (first stage of `invokeAction`) -/

/-- The envelope headers object: `params.__ow_headers ?? {}` (the envelope
builder always stores an object there). -/
def headersObjOf (params : JsObj) : JsObj :=
  match jsLookupV params "__ow_headers" with
  | .obj o => o
  | _ => []

/-- Reduce the header keys to lower case; a later (re-assigned) key wins,
exactly as in the source `reduce`. -/
def lowercaseKeys (o : JsObj) : JsObj :=
  o.map (fun kv => (jsToLower kv.1, kv.2))

def requiredAuthHeaders : List String := ["authorization", "x-gw-ims-org-id"]

/-- First required header whose value is falsy (JS `!owHeaders?.[headerKey]`). -/
def firstMissingHeader (ow : JsObj) : List String → Option String
  | [] => none
  | k :: ks => if jsTruthy (jsLookupV ow k) then firstMissingHeader ow ks else some k

def authMissingResult (headerKey : String) : JsObj :=
  [("statusCode", .num 401),
   ("body", .obj [("error", .str ("cannot authorize request, reason: missing " ++
     headerKey ++ " header"))])]

/-- The AUTH_CHECK stage of `invokeAction`: `some r` means the invocation is
rejected with `r` before loading. -/
def authCheck (action : Option ActionDef) (params : JsObj) : Option JsObj :=
  let annotVal := match action with
    | some a => jsLookupV a.annots "require-adobe-auth"
    | none => .undefVal
  if jsTruthy annotVal then
    let owHeaders := lowercaseKeys (headersObjOf params)
    match firstMissingHeader owHeaders requiredAuthHeaders with
    | some k => some (authMissingResult k)
    | none => none
  else none

/-! ## Response normalization (the tail of `invokeAction`) -/

/-- `typeof response === object && !Array.isArray(response)` (`null` and
Buffers have `typeof` object). -/
def isObjectNotArray : JsVal → Bool
  | .obj _ => true
  | .null => true
  | .buf _ => true
  | _ => false

/-- The `headers` variable of the normalization: read off a truthy response,
left `undefined` otherwise. -/
def normHeaders (response : JsVal) : JsVal :=
  if jsTruthy response then jsGetV response "headers" else .undefVal

/-- The `statusCode` variable before the `|| 200` default: the `error`
field's status when the response carries a truthy `error`, the top-level
status otherwise, 204 on a falsy response. -/
def normStatusRaw (response : JsVal) : JsVal :=
  if jsTruthy response then
    if jsTruthy (jsGetV response "error") then jsGetV (jsGetV response "error") "statusCode"
    else jsGetV response "statusCode"
  else .num 204

/-- `statusCode = statusCode || 200`. -/
def normStatus (response : JsVal) : JsVal :=
  if jsTruthy (normStatusRaw response) then normStatusRaw response else .num 200

/-- The `body` variable before the empty-string default. -/
def normBodyRaw (response : JsVal) : JsVal :=
  if jsTruthy response then
    if jsTruthy (jsGetV response "error") then jsGetV (jsGetV response "error") "body"
    else jsGetV response "body"
  else .str ""

/-- `body = body || empty string`. -/
def normBody (response : JsVal) : JsVal :=
  if jsTruthy (normBodyRaw response) then normBodyRaw response else .str ""

/-- Shape the callee's return value into the InvocationResult, exactly as in
the source: `error`-field short-circuit, 204/empty-body default on a falsy
response, `|| 200` / `|| empty-string` defaults, and the spread of the other
response properties when the response is a non-array object and not an
error. -/
def normalizeResponse (response : JsVal) : JsObj :=
  (if isObjectNotArray response && !(jsGE (normStatus response) 400)
    then spreadFields response else []) ++
  [("headers", normHeaders response), ("statusCode", normStatus response),
   ("body", normBody response)]

/-! ## `invokeAction` -/

/-- The namespace as rendered into the `__OW_ACTION_NAME` template literal
(JS renders a missing variable as the text `undefined`). -/
def owNamespaceStr (e : List (String × String)) : String :=
  match envGet e "__OW_NAMESPACE" with
  | some v => v
  | none => "undefined"

/-- `invokeAction` from `run-dev.js`.  `actId` stands for the freshly
generated random activation id.  The snapshot (`preCallEnv`, `originalCwd`)
is taken before the load; the restore happens in the `finally` of the
execution `try` only, so the load-failure returns keep whatever state the
loader left (with the activation id already set). -/
def invokeAction (loader : Loader) (actId : String)
    (distFolder packageName actionName : String)
    (action : Option ActionDef) (params : JsObj) (s : ProcState) :
    JsObj × ProcState :=
  match authCheck action params with
  | some r => (r, s)
  | none =>
    let preCallEnv := s.env
    let originalCwd := s.cwd
    let s1 : ProcState := { s with env := envSet s.env "__OW_ACTIVATION_ID" actId }
    match loader distFolder packageName actionName s1 with
    | (.loadError, s2) => (loadErrorResult actionName, s2)
    | (.loaded none, s2) => (invalidHttpResult, s2)
    | (.loaded (some fn), s2) =>
      match action with
      | none =>
        -- `action.function` on `undefined` throws inside the try; the catch
        -- yields the generic 400 and the finally restores both snapshots
        (invalidHttpResult, { env := preCallEnv, cwd := originalCwd })
      | some a =>
        let s3 : ProcState := { s2 with cwd := dirname a.function }
        let owActionName := "/" ++ owNamespaceStr s3.env ++ "/" ++ packageName ++ "/" ++ actionName
        let s4 : ProcState := { s3 with env := envSet s3.env "__OW_ACTION_NAME" owActionName }
        match fn params s4 with
        | (.thrown, _) => (invalidHttpResult, { env := preCallEnv, cwd := originalCwd })
        | (.ret v, _) =>
          -- the `delete` of __OW_ACTION_NAME is immediately overwritten by
          -- the finally restore of the whole environment
          (normalizeResponse v, { env := preCallEnv, cwd := originalCwd })

/-! ## `invokeSequence` -/

/-- One invoked sequence step, with the parameters it received and the
result it produced (the instrumentation trace of the loop; the loop's result
value is untouched by it). -/
structure SeqStep where
  name : String
  params : JsObj
  result : JsObj

/-- The fixed data of a sequence invocation (`actionRequestContext` minus
the item and its params). -/
structure SeqCtx where
  distFolder : String
  loader : Loader
  actIds : Nat → String
  packageName : String
  actionConfig : ActionConfig

/-- `lastActionResponse.statusCode >= 400`. -/
def isErrorResult (r : JsObj) : Bool := jsGE (jsLookupV r "statusCode") 400

def seqCompErrResult : JsObj :=
  [("statusCode", .num 400),
   ("body", .obj [("error", .str "Sequence component does not exist.")])]

/-- The parameter object of a non-first sequence step, exactly the source's
object literal: selected original params, package inputs, the step's action
inputs, then every field of the previous response, later entries winning. -/
def assembleStepParams (seqParams : JsObj) (pkgInputs : JsObj)
    (action : Option ActionDef) (lastResponse : Option JsObj) : JsObj :=
  [("__ow_headers", jsLookupV seqParams "__ow_headers"),
   ("__ow_method", jsLookupV seqParams "__ow_method")] ++
  pkgInputs ++
  (match action with | some a => a.inputs | none => []) ++
  (match lastResponse with | some r => r | none => [])

/-- The `for` loop of `invokeSequence`: returns the final
`lastActionResponse`, the final process state, and the trace of invoked
steps. -/
def seqLoop (ctx : SeqCtx) (seqParams : JsObj) :
    List String → Nat → Option JsObj → ProcState →
    Option JsObj × ProcState × List SeqStep
  | [], _, last, s => (last, s, [])
  | n :: rest, i, last, s =>
    let actionName := jsTrim n
    let action := lookupActionDef ctx.actionConfig ctx.packageName actionName
    let actionParams :=
      if i = 0 then seqParams
      else assembleStepParams seqParams (packageInputs ctx.actionConfig ctx.packageName)
        action last
    match action with
    | some a =>
      let out := invokeAction ctx.loader (ctx.actIds i) ctx.distFolder ctx.packageName
        actionName (some a) actionParams s
      if isErrorResult out.1 then (some out.1, out.2, [⟨actionName, actionParams, out.1⟩])
      else
        let fin := seqLoop ctx seqParams rest (i + 1) (some out.1) out.2
        (fin.1, fin.2.1, ⟨actionName, actionParams, out.1⟩ :: fin.2.2)
    | none => (some seqCompErrResult, s, [])

/-- `sequence?.actions?.split(,) ?? []` (note: splitting the empty string
yields one empty-named step, not zero steps). -/
def splitActions : Option SequenceDef → List String
  | some sq =>
    match sq.actions with
    | some a => strSplitOnChar ',' a
    | none => []
  | none => []

/-- `invokeSequence` from `run-dev.js`, instrumented with the step trace. -/
def invokeSequence (ctx : SeqCtx) (seq : Option SequenceDef) (seqParams : JsObj)
    (s : ProcState) : Option JsObj × ProcState × List SeqStep :=
  seqLoop ctx seqParams (splitActions seq) 0 none s

/-! ## The parameter builder (`createActionParametersFromRequest`) -/

/-- The inbound HTTP request, as seen through the express middleware:
`urlParam` is `req.params[0]` (the path after the API prefix), `body` is the
middleware-parsed body (`null` when absent), `contentType` drives the
`req.is` checks. -/
structure Request where
  urlParam : String
  headers : JsObj
  query : JsObj
  method : String
  contentType : Option String
  body : JsVal

/-- `req.is(mime)` (express middleware, modelled as an exact media-type
match). -/
def reqIs (req : Request) (mime : String) : Bool :=
  req.contentType = some mime

/-- Coercion `String(v)` for query-string serialization (objects and arrays
are not needed by the engine claims). -/
def jsToStringCoerce : JsVal → String
  | .str s => s
  | .num n => toString n
  | .bool b => if b then "true" else "false"
  | .null => "null"
  | .undefVal => "undefined"
  | _ => ""

/-- `new URLSearchParams(body).toString()` (external Node builtin): the
parsed form body re-serialized as a query string.  Percent-encoding is not
modelled; no claim depends on it. -/
def urlSearchParamsString : JsVal → String
  | .obj o => String.intercalate "&" (o.map (fun kv => kv.1 ++ "=" ++ jsToStringCoerce kv.2))
  | _ => ""

/-- The static inputs, each value interpolated against the current
environment (`action.inputs[key] = interpolate(value, process.env)`). -/
def interpolateInputs (actionInputs : JsObj) (env : List (String × String)) : JsObj :=
  actionInputs.map (fun kv => (kv.1, interpolate kv.2 env))

/-- The params object literal before the body merge: headers (with the
forced `x-forwarded-for`), query object, lowercased method, then the spread
query fields and the interpolated static inputs (later entries winning). -/
def baseParams (req : Request) (actionInputs : JsObj)
    (env : List (String × String)) : JsObj :=
  [("__ow_headers", .obj (req.headers ++ [("x-forwarded-for", .str "127.0.0.1")])),
   ("__ow_query", .obj req.query),
   ("__ow_method", .str (jsToLower req.method))] ++
  req.query ++ interpolateInputs actionInputs env

/-- `params.__ow_method === post`. -/
def isPostVal : JsVal → Bool
  | .str s => s = "post"
  | _ => false

/-- `v === null` (strict). -/
def isNullVal : JsVal → Bool
  | .null => true
  | _ => false

/-- `createActionParametersFromRequest({req, contextItem, actionInputs})`
from `run-dev.js`, with the ambient `process.env` made explicit. -/
def createActionParametersFromRequest (req : Request) (contextItem : Option ContextItem)
    (actionInputs : JsObj) (env : List (String × String)) : JsObj :=
  let params := baseParams req actionInputs env
  let isJson := reqIs req "application/json"
  let isFormData := reqIs req "application/x-www-form-urlencoded"
  let isRaw := isRawWebAction contextItem
  if isPostVal (jsLookupV params "__ow_method") && !(isNullVal req.body) then
    if isRaw then
      if isFormData then params ++ [("__ow_body", .str (urlSearchParamsString req.body))]
      else params ++ [("__ow_body", .str (bodyTransformToRaw req.body))]
    else if isJson || isFormData then params ++ spreadFields req.body
    else params ++ [("__ow_body", .str (bodyTransformToRaw req.body))]
  else params

/-! ## Response rendering and the web-action dispatcher -/

/-- What `httpStatusResponse` does to the transport response object. -/
structure HttpResponse where
  status : JsVal
  headersSet : Option JsVal
  body : JsVal

/-- A rendering either completes, or throws: on the destructuring of a
`null` action response, or when the status-message lookup of the log line
throws on a status code outside the HTTP table. -/
inductive RenderOutcome where
  | threw
  | rendered (r : HttpResponse)

/-- The status-code to reason-phrase table of the external
`http-status-codes` library (v2), keyed by the stringified code. -/
def reasonPhrases : List (String × String) :=
  [("100", "Continue"), ("101", "Switching Protocols"), ("102", "Processing"),
   ("103", "Early Hints"),
   ("200", "OK"), ("201", "Created"), ("202", "Accepted"),
   ("203", "Non Authoritative Information"), ("204", "No Content"),
   ("205", "Reset Content"), ("206", "Partial Content"), ("207", "Multi-Status"),
   ("300", "Multiple Choices"), ("301", "Moved Permanently"),
   ("302", "Moved Temporarily"), ("303", "See Other"), ("304", "Not Modified"),
   ("305", "Use Proxy"), ("307", "Temporary Redirect"), ("308", "Permanent Redirect"),
   ("400", "Bad Request"), ("401", "Unauthorized"), ("402", "Payment Required"),
   ("403", "Forbidden"), ("404", "Not Found"), ("405", "Method Not Allowed"),
   ("406", "Not Acceptable"), ("407", "Proxy Authentication Required"),
   ("408", "Request Timeout"), ("409", "Conflict"), ("410", "Gone"),
   ("411", "Length Required"), ("412", "Precondition Failed"),
   ("413", "Request Entity Too Large"), ("414", "Request-URI Too Long"),
   ("415", "Unsupported Media Type"), ("416", "Requested Range Not Satisfiable"),
   ("417", "Expectation Failed"), ("418", "I" ++ sq ++ "m a teapot"),
   ("419", "Insufficient Space on Resource"), ("420", "Method Failure"),
   ("421", "Misdirected Request"), ("422", "Unprocessable Entity"),
   ("423", "Locked"), ("424", "Failed Dependency"), ("425", "Too Early"),
   ("426", "Upgrade Required"), ("428", "Precondition Required"),
   ("429", "Too Many Requests"), ("431", "Request Header Fields Too Large"),
   ("451", "Unavailable For Legal Reasons"),
   ("500", "Internal Server Error"), ("501", "Not Implemented"),
   ("502", "Bad Gateway"), ("503", "Service Unavailable"),
   ("504", "Gateway Timeout"), ("505", "HTTP Version Not Supported"),
   ("507", "Insufficient Storage"), ("511", "Network Authentication Required")]

/-- `getReasonPhrase(statusCode)` of the external `http-status-codes`
library: the table lookup under the stringified code; `none` models the
`Error` it throws for every code outside the table. -/
def getReasonPhrase (code : JsVal) : Option String :=
  reasonPhrases.lookup (jsToStringCoerce code)

/-- `statusCodeMessage(statusCode)` from `run-dev.js` (a direct delegation
to `getReasonPhrase`). -/
def statusCodeMessage (statusCode : JsVal) : Option String :=
  getReasonPhrase statusCode

/-- `httpStatusResponse({actionResponse, res})`: destructure the action
response (throwing on `null`), build the log line — whose
`statusCodeMessage` call throws on a status code outside the table, before
anything is sent — then set headers when truthy and
`res.status(statusCode).send(body)`. -/
def httpStatusResponse (actionResponse : Option JsObj) : RenderOutcome :=
  match actionResponse with
  | none => .threw
  | some o =>
    let statusCode := jsLookupV o "statusCode"
    match statusCodeMessage statusCode with
    | none => .threw
    | some _ =>
      let headers := jsLookupV o "headers"
      .rendered { status := statusCode
                  headersSet := if jsTruthy headers then some headers else none
                  body := jsLookupV o "body" }

def notFoundResult : JsObj :=
  [("statusCode", .num 404),
   ("body", .obj [("error", .str "The requested resource does not exist.")])]

/-- What the dispatcher produced: the rendering outcome, whether the
non-web-action warning was logged, and the process state afterwards. -/
structure DispatchOutput where
  outcome : RenderOutcome
  warned : Bool
  state : ProcState

/-- The context item the dispatcher resolves for a request: the sequence if
one matches, else the action if one matches. -/
def resolveContextItem (cfg : ActionConfig) (packageName contextItemName : String) :
    Option ContextItem :=
  match lookupSequenceDef cfg packageName contextItemName with
  | some sq => some (.seq sq)
  | none =>
    match lookupActionDef cfg packageName contextItemName with
    | some a => some (.action a)
    | none => none

/-- The `i`-th segment of the dispatch URL; a missing segment reads as the
JS property key `undefined` (array destructuring yields `undefined`, which
property access stringifies). -/
def pathSegment (url : String) (i : Nat) : String :=
  (((strSplitOnChar '/' url).get? i)).getD "undefined"

/-- `serveWebAction(req, res, actionConfig, distFolder, actionLoader)` from
`run-dev.js`.  Only a resolved action that is not shadowed by a sequence is
invoked (`if (invoker && !sequence)`); every other resolution — including a
resolved sequence — renders the 404 result. -/
def serveWebAction (loader : Loader) (actId : String) (cfg : ActionConfig)
    (distFolder : String) (req : Request) (s : ProcState) : DispatchOutput :=
  let segs := strSplitOnChar '/' req.urlParam
  let packageName := pathSegment req.urlParam 0
  let contextItemName := pathSegment req.urlParam 1
  let action := lookupActionDef cfg packageName contextItemName
  let seqDef := lookupSequenceDef cfg packageName contextItemName
  let owPath := joinWith "/" (segs.drop 2)
  let combinedInputs := packageInputs cfg packageName ++
    (match action with | some a => a.inputs | none => [])
  let contextItem := resolveContextItem cfg packageName contextItemName
  let params0 := createActionParametersFromRequest req contextItem combinedInputs s.env
  let params := params0 ++ [("__ow_path", .str owPath)]
  match seqDef, action with
  | none, some a =>
    let warned := !(isWebAction contextItem)
    let out := invokeAction loader actId distFolder packageName contextItemName
      (some a) params s
    { outcome := httpStatusResponse (some out.1), warned := warned, state := out.2 }
  | _, _ =>
    { outcome := httpStatusResponse (some notFoundResult), warned := false, state := s }

/-! ## Claim theorems -/

/-- A value that is strictly the string `raw` passes the `toBoolean` test of
`isWebAction`. -/
theorem toBooleanJs_of_isRawValue (v : JsVal) (h : isRawValue v = true) :
    toBooleanJs v = true := by
  cases v <;> simp [isRawValue] at h
  rename_i s
  subst h
  rfl

/-- C10: a raw web action (web attribute or web-export annotation strictly
equal to the string `raw`) is always a web action, and consequently the
dispatcher never takes the non-web-action warning path for a resolved raw
web action. -/
theorem raw_web_action_is_web_action :
    (∀ item : Option ContextItem, isRawWebAction item = true → isWebAction item = true) ∧
    (∀ (loader : Loader) (actId : String) (cfg : ActionConfig) (distFolder : String)
      (req : Request) (s : ProcState),
      isRawWebAction (resolveContextItem cfg (pathSegment req.urlParam 0)
        (pathSegment req.urlParam 1)) = true →
      (serveWebAction loader actId cfg distFolder req s).warned = false) := by
  have main : ∀ item : Option ContextItem, isRawWebAction item = true → isWebAction item = true := by
    intro item h
    unfold isRawWebAction at h
    unfold isWebAction
    rcases Bool.or_eq_true_iff.mp h with h' | h'
    · exact Bool.or_eq_true_iff.mpr (Or.inl (toBooleanJs_of_isRawValue _ h'))
    · exact Bool.or_eq_true_iff.mpr (Or.inr (toBooleanJs_of_isRawValue _ h'))
  refine ⟨main, ?_⟩
  intro loader actId cfg distFolder req s hraw
  unfold serveWebAction
  simp only
  cases hseq : lookupSequenceDef cfg (pathSegment req.urlParam 0)
      (pathSegment req.urlParam 1) with
  | some sq => simp [hseq]
  | none =>
    cases hact : lookupActionDef cfg (pathSegment req.urlParam 0)
        (pathSegment req.urlParam 1) with
    | none => simp [hseq, hact]
    | some a =>
      have hweb := main _ hraw
      simp [hseq, hact, hweb]

/-- C10 witness: a concrete raw web action. -/
theorem raw_web_action_is_web_action_witness :
    isRawWebAction (some (.action { function := "f", web := .str "raw" })) = true ∧
    isWebAction (some (.action { function := "f", web := .str "raw" })) = true :=
  ⟨rfl, raw_web_action_is_web_action.1 _ rfl⟩

/-- The quoted-literal test string of the interpolator contract. -/
def quotedX : String := sq ++ "\x7bX\x7d" ++ sq

/-- C6: the interpolator replaces each placeholder occurrence with the table
value, replaces it with the empty string when the name is absent, leaves a
quote-enclosed occurrence untouched, maps arrays element-wise, and passes
every other non-string value through unchanged. -/
theorem interpolate_contract :
    (interpolate (.str "${X}") [("X", "v")] = .str "v") ∧
    (interpolate (.str quotedX) [("X", "v")] = .str quotedX) ∧
    (interpolate (.str "${Y}") [] = .str "") ∧
    (∀ (xs : List JsVal) props, interpolate (.arr xs) props = .arr (xs.map (interpolate · props))) ∧
    (∀ (o : List (String × JsVal)) props, interpolate (.obj o) props = .obj o) ∧
    (∀ (n : Int) props, interpolate (.num n) props = .num n) ∧
    (∀ (b : Bool) props, interpolate (.bool b) props = .bool b) ∧
    (∀ props, interpolate .null props = .null) ∧
    (∀ props, interpolate .undefVal props = .undefVal) ∧
    (∀ (bytes : List Nat) props, interpolate (.buf bytes) props = .buf bytes) := by
  refine ⟨rfl, rfl, rfl, ?_, ?_, ?_, ?_, ?_, ?_, ?_⟩ <;>
    intros <;> simp [interpolate, interpolateList_eq_map]

/-- C2: an action annotated `require-adobe-auth: true` invoked without any
(case-insensitive) `authorization` header is rejected by AUTH_CHECK with
exactly the 401 missing-authorization result, for every loader (nothing is
loaded or executed, and the process state is untouched); an action without
that annotation never produces an AUTH_CHECK result. -/
theorem auth_gate_contract :
    (∀ (loader : Loader) (actId distFolder packageName actionName : String)
      (a : ActionDef) (params : JsObj) (s : ProcState),
      jsLookupV a.annots "require-adobe-auth" = .bool true →
      jsLookup (lowercaseKeys (headersObjOf params)) "authorization" = none →
      invokeAction loader actId distFolder packageName actionName (some a) params s =
        ([("statusCode", .num 401),
          ("body", .obj [("error",
            .str "cannot authorize request, reason: missing authorization header")])], s)) ∧
    (∀ (a : ActionDef) (params : JsObj),
      jsLookup a.annots "require-adobe-auth" = none →
      authCheck (some a) params = none) ∧
    (∀ params : JsObj, authCheck none params = none) := by
  refine ⟨?_, ?_, ?_⟩
  · intro loader actId distFolder packageName actionName a params s hannot hmiss
    unfold invokeAction authCheck
    simp only [hannot]
    unfold firstMissingHeader requiredAuthHeaders
    simp [jsLookupV, hmiss, jsTruthy, authMissingResult]
  · intro a params hannot
    unfold authCheck
    simp [jsLookupV, hannot, jsTruthy]
  · intro params
    unfold authCheck
    simp [jsTruthy]

example : jsToLower "POST" = "post" := rfl
example : strSplitOnChar ',' "a,b" = ["a", "b"] := rfl
example : (strSplitOnChar ',' "a, b").map jsTrim = ["a", "b"] := rfl
example : lowercaseKeys [("X-Other", .str "1")] = [("x-other", .str "1")] := rfl
example : jsLookup (lowercaseKeys [("X-Other", .str "1")]) "authorization" = none := rfl

/-- C2 witness: concrete protected action, request without an authorization
header. -/
theorem auth_gate_contract_witness :
    invokeAction (fun _ _ _ s => (.loadError, s)) "aid" "d" "p" "a"
      (some { function := "f", annots := [("require-adobe-auth", .bool true)] })
      [("__ow_headers", .obj [("x-other", .str "1")])] ⟨[], "/"⟩ =
      ([("statusCode", .num 401),
        ("body", .obj [("error",
          .str "cannot authorize request, reason: missing authorization header")])],
        (⟨[], "/"⟩ : ProcState)) :=
  auth_gate_contract.1 _ "aid" "d" "p" "a" _ _ _ rfl rfl

/-- The explicit tail fields of every normalized result: `statusCode` and
`body` read back what the normalization computed, whatever was spread before
them. -/
theorem jsLookup_result_tail (a : JsObj) (h sc b : JsVal) :
    jsLookup (a ++ [("headers", h), ("statusCode", sc), ("body", b)]) "statusCode" = some sc ∧
    jsLookup (a ++ [("headers", h), ("statusCode", sc), ("body", b)]) "body" = some b := by
  rw [jsLookup_append, jsLookup_append]
  exact ⟨rfl, rfl⟩

/-- C3: normalization of the callee's return value — a missing response
yields `{204, empty body}`; a truthy response without an `error` field and
without a `statusCode` yields status 200; an `error` field shaped
`{statusCode, body}` (truthy members) supersedes the top-level
`statusCode`/`body`. -/
theorem normalize_response_contract :
    (jsLookup (normalizeResponse .undefVal) "statusCode" = some (.num 204) ∧
     jsLookup (normalizeResponse .undefVal) "body" = some (.str "")) ∧
    (∀ v : JsVal, jsTruthy v = true → jsTruthy (jsGetV v "error") = false →
      jsGetV v "statusCode" = .undefVal →
      jsLookup (normalizeResponse v) "statusCode" = some (.num 200)) ∧
    (∀ (v e b : JsVal) (sc : Int), jsGetV v "error" = e → jsTruthy e = true →
      jsGetV e "statusCode" = .num sc → sc ≠ 0 →
      jsGetV e "body" = b → jsTruthy b = true →
      jsLookup (normalizeResponse v) "statusCode" = some (.num sc) ∧
      jsLookup (normalizeResponse v) "body" = some b) := by
  have lstat : ∀ v : JsVal, jsLookup (normalizeResponse v) "statusCode" =
      some (normStatus v) := by
    intro v
    unfold normalizeResponse
    exact (jsLookup_result_tail _ _ _ _).1
  have lbody : ∀ v : JsVal, jsLookup (normalizeResponse v) "body" =
      some (normBody v) := by
    intro v
    unfold normalizeResponse
    exact (jsLookup_result_tail _ _ _ _).2
  refine ⟨⟨rfl, rfl⟩, ?_, ?_⟩
  · intro v hv herr hsc
    have hraw : normStatusRaw v = JsVal.undefVal := by
      unfold normStatusRaw
      rw [hv, herr]
      simp [hsc]
    have hst : normStatus v = JsVal.num 200 := by
      unfold normStatus
      rw [hraw]
      rfl
    rw [lstat, hst]
  · intro v e b sc he htre hsc hscne hb htrb
    have hv : jsTruthy v = true := by
      cases v <;>
        first
        | rfl
        | (simp only [jsGetV] at he; subst he; simp [jsTruthy] at htre)
    have hraw : normStatusRaw v = JsVal.num sc := by
      unfold normStatusRaw
      rw [hv, he, htre]
      simp [hsc]
    have hst : normStatus v = JsVal.num sc := by
      unfold normStatus
      rw [hraw]
      simp [jsTruthy, hscne]
    have hbraw : normBodyRaw v = b := by
      unfold normBodyRaw
      rw [hv, he, htre]
      simp [hb]
    have hbd : normBody v = b := by
      unfold normBody
      rw [hbraw, htrb]
      simp
    rw [lstat, lbody, hst, hbd]
    exact ⟨rfl, rfl⟩

/-- C3 witness: a response whose `error` field carries `{502, boom}` while
the top level carries `{200, top}` — the nested pair wins. -/
theorem normalize_response_contract_witness :
    jsLookup (normalizeResponse (.obj
      [("error", .obj [("statusCode", .num 502), ("body", .str "boom")]),
       ("statusCode", .num 200), ("body", .str "top")])) "statusCode" = some (.num 502) ∧
    jsLookup (normalizeResponse (.obj
      [("error", .obj [("statusCode", .num 502), ("body", .str "boom")]),
       ("statusCode", .num 200), ("body", .str "top")])) "body" = some (.str "boom") :=
  normalize_response_contract.2.2 _ _ _ 502 rfl rfl rfl (by decide) rfl rfl

/-! ### C4: environment and working-directory restoration -/

def cexLoaderErr : Loader := fun _ _ _ s => (.loadError, s)

def cexAction0 : ActionDef := { function := "pkg/act/index.js" }

def cexState0 : ProcState := { env := [("HOME", "/root")], cwd := "/work" }

/-- C4 counterexample: when the loader throws, `invokeAction` returns before
the `finally` that restores the snapshots, so the freshly set
`__OW_ACTIVATION_ID` remains in the environment: the state after the
invocation differs from the state before. -/
theorem invoke_action_env_leak_counterexample :
    envGet (invokeAction cexLoaderErr "aid0" "dist" "pkg" "act" (some cexAction0)
      [] cexState0).2.env "__OW_ACTIVATION_ID" = some "aid0" ∧
    envGet cexState0.env "__OW_ACTIVATION_ID" = none ∧
    (invokeAction cexLoaderErr "aid0" "dist" "pkg" "act" (some cexAction0)
      [] cexState0).2 ≠ cexState0 := by
  refine ⟨rfl, rfl, ?_⟩
  decide

/-- C4 (amended): the snapshots are restored exactly — regardless of
execution success or throw — whenever the auth gate rejects or loading
yields a usable function; but when the loader throws or the module has no
usable `main`, the invoker returns with whatever state the load left (the
activation id included). -/
theorem invoke_action_restore_amended :
    (∀ (loader : Loader) (actId distFolder packageName actionName : String)
      (action : Option ActionDef) (params : JsObj) (s : ProcState)
      (fn : ActionFn) (s2 : ProcState),
      loader distFolder packageName actionName
        { s with env := envSet s.env "__OW_ACTIVATION_ID" actId } = (.loaded (some fn), s2) →
      (invokeAction loader actId distFolder packageName actionName action params s).2 = s) ∧
    (∀ (loader : Loader) (actId distFolder packageName actionName : String)
      (action : Option ActionDef) (params : JsObj) (s : ProcState) (s2 : ProcState),
      authCheck action params = none →
      loader distFolder packageName actionName
        { s with env := envSet s.env "__OW_ACTIVATION_ID" actId } = (.loadError, s2) →
      (invokeAction loader actId distFolder packageName actionName action params s).2 = s2) ∧
    (∀ (loader : Loader) (actId distFolder packageName actionName : String)
      (action : Option ActionDef) (params : JsObj) (s : ProcState) (s2 : ProcState),
      authCheck action params = none →
      loader distFolder packageName actionName
        { s with env := envSet s.env "__OW_ACTIVATION_ID" actId } = (.loaded none, s2) →
      (invokeAction loader actId distFolder packageName actionName action params s).2 = s2) := by
  refine ⟨?_, ?_, ?_⟩
  · intro loader actId distFolder packageName actionName action params s fn s2 hload
    unfold invokeAction
    cases hauth : authCheck action params with
    | some r => rfl
    | none =>
      simp only [hload]
      cases action with
      | none => rfl
      | some a =>
        dsimp only
        cases hrun : fn params { env := envSet s2.env "__OW_ACTION_NAME" ("/" ++ owNamespaceStr s2.env ++ "/" ++ packageName ++ "/" ++ actionName), cwd := dirname a.function } with
        | mk outcome s5 => cases outcome <;> rfl
  · intro loader actId distFolder packageName actionName action params s s2 hauth hload
    unfold invokeAction
    simp only [hauth, hload]
  · intro loader actId distFolder packageName actionName action params s s2 hauth hload
    unfold invokeAction
    simp only [hauth, hload]

def cexFnOk : ActionFn := fun _ s =>
  (.ret (.obj [("body", .str "ok")]),
    { s with env := envSet s.env "LEAK" "yes", cwd := "/elsewhere" })

def cexLoaderOk : Loader := fun _ _ _ s => (.loaded (some cexFnOk), s)

/-- C4 amended witness: a callee that mutates the environment and the
working directory; after the invocation the state is exactly the
pre-invocation one. -/
theorem invoke_action_restore_amended_witness :
    (invokeAction cexLoaderOk "aid0" "dist" "pkg" "act" (some cexAction0)
      [] cexState0).2 = cexState0 :=
  invoke_action_restore_amended.1 cexLoaderOk "aid0" "dist" "pkg" "act"
    (some cexAction0) [] cexState0 cexFnOk _ rfl

/-! ### C1: sequence short-circuit on error results -/

/-- Loop invariant: an error result in the trace is necessarily the last
invoked step, and the loop's result is exactly that failing result. -/
theorem seqLoop_error_stops (ctx : SeqCtx) (seqParams : JsObj) :
    ∀ (names : List String) (i : Nat) (last : Option JsObj) (s : ProcState)
      (res : Option JsObj) (s' : ProcState) (tr : List SeqStep),
      seqLoop ctx seqParams names i last s = (res, s', tr) →
      ∀ (j : Nat) (hj : j < tr.length),
        isErrorResult (tr[j].result) = true →
        tr.length = j + 1 ∧ res = some (tr[j].result) := by
  intro names
  induction names with
  | nil =>
    intro i last s res s' tr h j hj herr
    simp only [seqLoop, Prod.mk.injEq] at h
    obtain ⟨-, -, h3⟩ := h
    subst h3
    exact absurd hj (by simp)
  | cons n rest ih =>
    intro i last s res s' tr h j hj herr
    simp only [seqLoop] at h
    cases hact : lookupActionDef ctx.actionConfig ctx.packageName (jsTrim n) with
    | none =>
      simp only [hact, Prod.mk.injEq] at h
      obtain ⟨-, -, h3⟩ := h
      subst h3
      exact absurd hj (by simp)
    | some a =>
      simp only [hact] at h
      by_cases herr1 : isErrorResult (invokeAction ctx.loader (ctx.actIds i) ctx.distFolder
          ctx.packageName (jsTrim n) (some a)
          (if i = 0 then seqParams
           else assembleStepParams seqParams (packageInputs ctx.actionConfig ctx.packageName)
             (some a) last) s).1 = true
      · simp only [herr1, if_true, Prod.mk.injEq] at h
        obtain ⟨h1, -, h3⟩ := h
        subst h3
        cases j with
        | zero => exact ⟨rfl, h1.symm⟩
        | succ jj => exact absurd hj (by simp)
      · simp only [herr1, if_false, Bool.false_eq_true, Prod.mk.injEq] at h
        obtain ⟨h1, h2, h3⟩ := h
        cases hfin : seqLoop ctx seqParams rest (i + 1)
            (some (invokeAction ctx.loader (ctx.actIds i) ctx.distFolder
              ctx.packageName (jsTrim n) (some a)
              (if i = 0 then seqParams
               else assembleStepParams seqParams (packageInputs ctx.actionConfig ctx.packageName)
                 (some a) last) s).1)
            (invokeAction ctx.loader (ctx.actIds i) ctx.distFolder
              ctx.packageName (jsTrim n) (some a)
              (if i = 0 then seqParams
               else assembleStepParams seqParams (packageInputs ctx.actionConfig ctx.packageName)
                 (some a) last) s).2 with
        | mk fin1 fin23 =>
          rw [hfin] at h1 h2 h3
          subst h3
          cases j with
          | zero =>
            simp only [List.getElem_cons_zero] at herr
            exact absurd herr (by simp [herr1])
          | succ jj =>
            have hjj : jj < fin23.2.length := by
              simpa using hj
            have herr' : isErrorResult (fin23.2[jj].result) = true := by
              simpa using herr
            have := ih (i + 1) _ _ fin1 fin23.1 fin23.2 (by rw [hfin]) jj hjj herr'
            refine ⟨by simp [this.1], ?_⟩
            rw [← h1]
            simp only [List.getElem_cons_succ]
            exact this.2

/-- C1: if the InvocationResult of step `j` of a sequence has
`statusCode >= 400`, the steps after `j` are never invoked (the trace ends
at `j`) and that failing result is the sequence's result. -/
theorem invoke_sequence_short_circuit
    (ctx : SeqCtx) (seq : Option SequenceDef) (seqParams : JsObj) (s : ProcState)
    (res : Option JsObj) (s' : ProcState) (tr : List SeqStep)
    (h : invokeSequence ctx seq seqParams s = (res, s', tr))
    (j : Nat) (hj : j < tr.length)
    (herr : isErrorResult (tr[j].result) = true) :
    tr.length = j + 1 ∧ res = some (tr[j].result) :=
  seqLoop_error_stops ctx seqParams (splitActions seq) 0 none s res s' tr h j hj herr

def cexFn500 : ActionFn := fun _ s =>
  (.ret (.obj [("statusCode", .num 500), ("body", .str "err")]), s)

def cexLoader500 : Loader := fun _ _ _ s => (.loaded (some cexFn500), s)

def cexActionA : ActionDef := { function := "d/p/a/index.js" }

def cexCfgAB : ActionConfig :=
  [("p", { actions := [("a", cexActionA), ("b", cexActionA)] })]

def cexSeqCtx500 : SeqCtx :=
  { distFolder := "d", loader := cexLoader500, actIds := fun _ => "id",
    packageName := "p", actionConfig := cexCfgAB }

def cexErr500Result : JsObj :=
  [("headers", .undefVal), ("statusCode", .num 500), ("body", .str "err")]

/-- C1 witness: a two-step sequence whose first step returns 500 — one step
in the trace, the failing result returned. -/
theorem invoke_sequence_short_circuit_witness :
    (invokeSequence cexSeqCtx500 (some { actions := some "a,b" }) [] ⟨[], "/"⟩).2.2.length
      = 0 + 1 ∧
    (invokeSequence cexSeqCtx500 (some { actions := some "a,b" }) [] ⟨[], "/"⟩).1
      = some cexErr500Result := by
  have h := invoke_sequence_short_circuit cexSeqCtx500 (some { actions := some "a,b" }) []
    (⟨[], "/"⟩ : ProcState) (some cexErr500Result) (⟨[], "/"⟩ : ProcState)
    [⟨"a", [], cexErr500Result⟩] rfl 0 (by decide) rfl
  exact ⟨h.1, h.2⟩

/-! ### C8: missing sequence component -/

/-- Loop invariant: if the first `p` invoked steps all succeeded and the
`p`-th step name does not resolve, the loop stops there with the
sequence-component error. -/
theorem seqLoop_missing_stops (ctx : SeqCtx) (seqParams : JsObj) :
    ∀ (names : List String) (i : Nat) (last : Option JsObj) (s : ProcState)
      (res : Option JsObj) (s' : ProcState) (tr : List SeqStep),
      seqLoop ctx seqParams names i last s = (res, s', tr) →
      ∀ (p : Nat) (hp : p < names.length),
        lookupActionDef ctx.actionConfig ctx.packageName (jsTrim names[p]) = none →
        p ≤ tr.length →
        (∀ (j : Nat), j < p → ∀ (hj : j < tr.length),
          isErrorResult (tr.get ⟨j, hj⟩).result = false) →
        res = some seqCompErrResult ∧ tr.length = p := by
  intro names
  induction names with
  | nil =>
    intro i last s res s' tr h p hp
    exact absurd hp (by simp)
  | cons n rest ih =>
    intro i last s res s' tr h p hp hmiss hreach hok
    simp only [seqLoop] at h
    cases p with
    | zero =>
      simp only [List.getElem_cons_zero] at hmiss
      simp only [hmiss, Prod.mk.injEq] at h
      obtain ⟨h1, -, h3⟩ := h
      exact ⟨h1.symm, by simp [← h3]⟩
    | succ q =>
      cases hact : lookupActionDef ctx.actionConfig ctx.packageName (jsTrim n) with
      | none =>
        simp only [hact, Prod.mk.injEq] at h
        obtain ⟨-, -, h3⟩ := h
        subst h3
        exact absurd hreach (by simp)
      | some a =>
        simp only [hact] at h
        by_cases herr1 : isErrorResult (invokeAction ctx.loader (ctx.actIds i) ctx.distFolder
            ctx.packageName (jsTrim n) (some a)
            (if i = 0 then seqParams
             else assembleStepParams seqParams (packageInputs ctx.actionConfig ctx.packageName)
               (some a) last) s).1 = true
        · simp only [herr1, if_true, Prod.mk.injEq] at h
          obtain ⟨-, -, h3⟩ := h
          subst h3
          have h0 := hok 0 (Nat.succ_pos q) (by simp)
          simp only [List.get] at h0
          exact absurd herr1 (by simp [h0])
        · simp only [herr1, if_false, Bool.false_eq_true, Prod.mk.injEq] at h
          obtain ⟨h1, h2, h3⟩ := h
          cases hfin : seqLoop ctx seqParams rest (i + 1)
              (some (invokeAction ctx.loader (ctx.actIds i) ctx.distFolder
                ctx.packageName (jsTrim n) (some a)
                (if i = 0 then seqParams
                 else assembleStepParams seqParams (packageInputs ctx.actionConfig ctx.packageName)
                   (some a) last) s).1)
              (invokeAction ctx.loader (ctx.actIds i) ctx.distFolder
                ctx.packageName (jsTrim n) (some a)
                (if i = 0 then seqParams
                 else assembleStepParams seqParams (packageInputs ctx.actionConfig ctx.packageName)
                   (some a) last) s).2 with
          | mk fin1 fin23 =>
            rw [hfin] at h1 h2 h3
            subst h3
            have hq : q < rest.length := by simpa using hp
            have hmiss' : lookupActionDef ctx.actionConfig ctx.packageName
                (jsTrim rest[q]) = none := by
              simpa using hmiss
            have hreach' : q ≤ fin23.2.length := by simpa using hreach
            have hok' : ∀ (j : Nat), j < q → ∀ (hj : j < fin23.2.length),
                isErrorResult (fin23.2.get ⟨j, hj⟩).result = false := by
              intro j hjq hj
              have := hok (j + 1) (Nat.succ_lt_succ hjq) (by simpa using Nat.succ_lt_succ hj)
              simpa [List.get] using this
            have := ih (i + 1) _ _ fin1 fin23.1 fin23.2 (by rw [hfin]) q hq hmiss' hreach' hok'
            refine ⟨by rw [← h1]; exact this.1, by simp [this.2]⟩

/-- C8: if a named sequence step does not resolve to an action (all earlier
steps having existed and succeeded), the Sequence Invoker stops at that step
— no later step is invoked — and returns exactly the 400
sequence-component-missing result. -/
theorem invoke_sequence_missing_component
    (ctx : SeqCtx) (seq : Option SequenceDef) (seqParams : JsObj) (s : ProcState)
    (res : Option JsObj) (s' : ProcState) (tr : List SeqStep)
    (h : invokeSequence ctx seq seqParams s = (res, s', tr))
    (p : Nat) (hp : p < (splitActions seq).length)
    (hmiss : lookupActionDef ctx.actionConfig ctx.packageName
      (jsTrim (splitActions seq)[p]) = none)
    (hreach : p ≤ tr.length)
    (hok : ∀ (j : Nat), j < p → ∀ (hj : j < tr.length),
      isErrorResult (tr.get ⟨j, hj⟩).result = false) :
    res = some [("statusCode", .num 400),
      ("body", .obj [("error", .str "Sequence component does not exist.")])] ∧
    tr.length = p :=
  seqLoop_missing_stops ctx seqParams (splitActions seq) 0 none s res s' tr h
    p hp hmiss hreach hok

def cexFn200 : ActionFn := fun _ s => (.ret (.obj [("body", .str "ok")]), s)

def cexLoader200 : Loader := fun _ _ _ s => (.loaded (some cexFn200), s)

def cexSeqCtx200 : SeqCtx :=
  { distFolder := "d", loader := cexLoader200, actIds := fun _ => "id",
    packageName := "p", actionConfig := cexCfgAB }

def cexOkResult : JsObj :=
  [("body", .str "ok"), ("headers", .undefVal), ("statusCode", .num 200), ("body", .str "ok")]

/-- C8 witness: sequence `a,nope` where `a` succeeds and `nope` does not
resolve — the loop stops after the one invoked step with the 400
sequence-component error. -/
theorem invoke_sequence_missing_component_witness :
    (invokeSequence cexSeqCtx200 (some { actions := some "a,nope" }) [] ⟨[], "/"⟩).1 =
      some [("statusCode", .num 400),
        ("body", .obj [("error", .str "Sequence component does not exist.")])] ∧
    (invokeSequence cexSeqCtx200 (some { actions := some "a,nope" }) [] ⟨[], "/"⟩).2.2.length
      = 1 := by
  have h := invoke_sequence_missing_component cexSeqCtx200
    (some { actions := some "a,nope" }) [] (⟨[], "/"⟩ : ProcState)
    (some seqCompErrResult) (⟨[], "/"⟩ : ProcState) [⟨"a", [], cexOkResult⟩] rfl
    1 (by decide) rfl (by decide)
    (by
      intro j hj hj'
      have hz : j = 0 := Nat.lt_one_iff.mp hj
      subst hz
      rfl)
  exact ⟨h.1, h.2⟩

/-! ### C5: per-step parameter assembly of sequences -/

theorem optOr_assoc (x y z : Option JsVal) :
    optOr (optOr x y) z = optOr x (optOr y z) := by
  cases x <;> rfl

/-- Loop invariant: the first invoked step received `seqParams` when the
loop started at index 0 (and the assembled params otherwise); every
subsequent invoked step received the assembled params built from its own
action lookup and the previous step's result. -/
theorem seqLoop_params (ctx : SeqCtx) (seqParams : JsObj) :
    ∀ (names : List String) (i : Nat) (last : Option JsObj) (s : ProcState)
      (res : Option JsObj) (s' : ProcState) (tr : List SeqStep),
      seqLoop ctx seqParams names i last s = (res, s', tr) →
      (∀ (h0 : 0 < tr.length),
        (tr.get ⟨0, h0⟩).params =
          (if i = 0 then seqParams
           else assembleStepParams seqParams (packageInputs ctx.actionConfig ctx.packageName)
             (lookupActionDef ctx.actionConfig ctx.packageName (tr.get ⟨0, h0⟩).name) last)) ∧
      (∀ (j : Nat) (hj : j + 1 < tr.length),
        (tr.get ⟨j + 1, hj⟩).params =
          assembleStepParams seqParams (packageInputs ctx.actionConfig ctx.packageName)
            (lookupActionDef ctx.actionConfig ctx.packageName (tr.get ⟨j + 1, hj⟩).name)
            (some (tr.get ⟨j, Nat.lt_of_succ_lt hj⟩).result)) := by
  intro names
  induction names with
  | nil =>
    intro i last s res s' tr h
    simp only [seqLoop, Prod.mk.injEq] at h
    obtain ⟨-, -, h3⟩ := h
    subst h3
    exact ⟨fun h0 => absurd h0 (by simp), fun j hj => absurd hj (by simp)⟩
  | cons n rest ih =>
    intro i last s res s' tr h
    simp only [seqLoop] at h
    cases hact : lookupActionDef ctx.actionConfig ctx.packageName (jsTrim n) with
    | none =>
      simp only [hact, Prod.mk.injEq] at h
      obtain ⟨-, -, h3⟩ := h
      subst h3
      exact ⟨fun h0 => absurd h0 (by simp), fun j hj => absurd hj (by simp)⟩
    | some a =>
      simp only [hact] at h
      by_cases herr1 : isErrorResult (invokeAction ctx.loader (ctx.actIds i) ctx.distFolder
          ctx.packageName (jsTrim n) (some a)
          (if i = 0 then seqParams
           else assembleStepParams seqParams (packageInputs ctx.actionConfig ctx.packageName)
             (some a) last) s).1 = true
      · simp only [herr1, if_true, Prod.mk.injEq] at h
        obtain ⟨-, -, h3⟩ := h
        subst h3
        refine ⟨fun h0 => ?_, fun j hj => absurd hj (by simp)⟩
        simp only [List.get, hact]
      · simp only [herr1, if_false, Bool.false_eq_true, Prod.mk.injEq] at h
        obtain ⟨h1, h2, h3⟩ := h
        cases hfin : seqLoop ctx seqParams rest (i + 1)
            (some (invokeAction ctx.loader (ctx.actIds i) ctx.distFolder
              ctx.packageName (jsTrim n) (some a)
              (if i = 0 then seqParams
               else assembleStepParams seqParams (packageInputs ctx.actionConfig ctx.packageName)
                 (some a) last) s).1)
            (invokeAction ctx.loader (ctx.actIds i) ctx.distFolder
              ctx.packageName (jsTrim n) (some a)
              (if i = 0 then seqParams
               else assembleStepParams seqParams (packageInputs ctx.actionConfig ctx.packageName)
                 (some a) last) s).2 with
        | mk fin1 fin23 =>
          rw [hfin] at h1 h2 h3
          subst h3
          have ihres := ih (i + 1) _ _ fin1 fin23.1 fin23.2 (by rw [hfin])
          constructor
          · intro h0
            simp only [List.get, hact]
          · intro j hj
            cases j with
            | zero =>
              have hlen : 0 < fin23.2.length := by simpa using hj
              have := ihres.1 hlen
              simp only [Nat.succ_ne_zero, if_false] at this
              simpa [List.get] using this
            | succ q =>
              have hq : q + 1 < fin23.2.length := by simpa using hj
              have := ihres.2 q hq
              simpa [List.get] using this

/-- C5: the first sequence step is invoked with the full original params;
every later step `i` is invoked with exactly the assembled object — the
original envelope's `__ow_headers` and `__ow_method`, the package inputs,
then the step's own action inputs, then every field of step `i-1`'s result —
and on that object a later entry wins every key lookup, in the order
previous-result, action inputs, package inputs, headers/method. -/
theorem invoke_sequence_step_params
    (ctx : SeqCtx) (seq : Option SequenceDef) (seqParams : JsObj) (s : ProcState)
    (res : Option JsObj) (s' : ProcState) (tr : List SeqStep)
    (h : invokeSequence ctx seq seqParams s = (res, s', tr)) :
    (∀ (h0 : 0 < tr.length), (tr.get ⟨0, h0⟩).params = seqParams) ∧
    (∀ (j : Nat) (hj : j + 1 < tr.length),
      (tr.get ⟨j + 1, hj⟩).params =
        assembleStepParams seqParams (packageInputs ctx.actionConfig ctx.packageName)
          (lookupActionDef ctx.actionConfig ctx.packageName (tr.get ⟨j + 1, hj⟩).name)
          (some (tr.get ⟨j, Nat.lt_of_succ_lt hj⟩).result)) ∧
    (∀ (sp pi : JsObj) (act : Option ActionDef) (lastr : JsObj) (k : String),
      jsLookup (assembleStepParams sp pi act (some lastr)) k =
        optOr (jsLookup lastr k)
          (optOr (jsLookup (match act with | some a => a.inputs | none => []) k)
            (optOr (jsLookup pi k)
              (jsLookup [("__ow_headers", jsLookupV sp "__ow_headers"),
                ("__ow_method", jsLookupV sp "__ow_method")] k)))) := by
  have base := seqLoop_params ctx seqParams (splitActions seq) 0 none s res s' tr h
  refine ⟨?_, base.2, ?_⟩
  · intro h0
    have := base.1 h0
    simpa using this
  · intro sp pi act lastr k
    unfold assembleStepParams
    rw [jsLookup_append, jsLookup_append, jsLookup_append]

/-- C5 witness: in the sequence `a,b`, step `b` receives exactly the
assembled parameter object built from step `a`'s result. -/
theorem invoke_sequence_step_params_witness :
    ((invokeSequence cexSeqCtx200 (some { actions := some "a,b" }) [] ⟨[], "/"⟩).2.2.get
      ⟨1, by decide⟩).params =
      assembleStepParams [] [] (some cexActionA) (some cexOkResult) := by
  have h := invoke_sequence_step_params cexSeqCtx200 (some { actions := some "a,b" }) []
    (⟨[], "/"⟩ : ProcState) (some cexOkResult) (⟨[], "/"⟩ : ProcState)
    [⟨"a", [], cexOkResult⟩,
     ⟨"b", assembleStepParams [] [] (some cexActionA) (some cexOkResult), cexOkResult⟩] rfl
  exact h.2.1 0 (by decide)

/-! ### C9: error containment at the dispatcher -/

def cexFn999 : ActionFn := fun _ s =>
  (.ret (.obj [("statusCode", .num 999), ("body", .str "x")]), s)

def cexLoader999 : Loader := fun _ _ _ s => (.loaded (some cexFn999), s)

def cexReq999 : Request :=
  { urlParam := "p/a", headers := [], query := [], method := "GET",
    contentType := none, body := .null }

/-- C9 counterexample: a callee returning `{statusCode: 999}` — the
normalization passes the truthy non-standard code through verbatim, and the
renderer's `statusCodeMessage` call (`getReasonPhrase` of the external
status-code table) throws before anything is sent, so the error escapes the
Dispatcher instead of a response being rendered. -/
theorem dispatcher_renderer_throws_counterexample :
    (serveWebAction cexLoader999 "aid" cexCfgAB "d" cexReq999 ⟨[], "/"⟩).outcome =
      RenderOutcome.threw ∧
    ¬ ∃ r, (serveWebAction cexLoader999 "aid" cexCfgAB "d" cexReq999 ⟨[], "/"⟩).outcome =
      RenderOutcome.rendered r := by
  refine ⟨rfl, ?_⟩
  rintro ⟨r, hr⟩
  rw [show (serveWebAction cexLoader999 "aid" cexCfgAB "d" cexReq999 ⟨[], "/"⟩).outcome =
    RenderOutcome.threw from rfl] at hr
  exact RenderOutcome.noConfusion hr

/-- C9 (amended): a sequence with no actions reference (or no sequence
object at all) yields no result (`null`) without error; loading and
execution errors are converted inside the Action Invoker, and the Dispatcher
always reaches the renderer with a non-null InvocationResult (the renderer's
`null`-destructuring throw is unreachable) — in particular every sequence
request is rendered (as the 404 result) without exception; and the renderer
completes without throwing whenever the result's status code is in the HTTP
status table.  However the renderer's status-message lookup itself can throw
past the Dispatcher on a status code outside the table. -/
theorem dispatcher_error_containment :
    (∀ (ctx : SeqCtx) (seqParams : JsObj) (s : ProcState),
      invokeSequence ctx none seqParams s = (none, s, [])) ∧
    (∀ (ctx : SeqCtx) (sq : SequenceDef) (seqParams : JsObj) (s : ProcState),
      sq.actions = none →
      invokeSequence ctx (some sq) seqParams s = (none, s, [])) ∧
    (∀ (loader : Loader) (actId : String) (cfg : ActionConfig) (distFolder : String)
      (req : Request) (s : ProcState),
      ∃ o : JsObj, (serveWebAction loader actId cfg distFolder req s).outcome =
        httpStatusResponse (some o)) ∧
    (∀ (loader : Loader) (actId : String) (cfg : ActionConfig) (distFolder : String)
      (req : Request) (s : ProcState) (sq : SequenceDef),
      lookupSequenceDef cfg (pathSegment req.urlParam 0) (pathSegment req.urlParam 1)
        = some sq →
      ∃ r, (serveWebAction loader actId cfg distFolder req s).outcome = .rendered r) ∧
    (∀ (o : JsObj) (m : String),
      statusCodeMessage (jsLookupV o "statusCode") = some m →
      ∃ r, httpStatusResponse (some o) = .rendered r) := by
  refine ⟨fun ctx seqParams s => rfl, ?_, ?_, ?_, ?_⟩
  · intro ctx sq seqParams s hnone
    unfold invokeSequence splitActions
    dsimp only
    rw [hnone]
    rfl
  · intro loader actId cfg distFolder req s
    unfold serveWebAction
    dsimp only
    cases lookupSequenceDef cfg (pathSegment req.urlParam 0) (pathSegment req.urlParam 1) with
    | some sq =>
      cases lookupActionDef cfg (pathSegment req.urlParam 0) (pathSegment req.urlParam 1) with
      | some a => exact ⟨notFoundResult, rfl⟩
      | none => exact ⟨notFoundResult, rfl⟩
    | none =>
      cases lookupActionDef cfg (pathSegment req.urlParam 0) (pathSegment req.urlParam 1) with
      | some a =>
        dsimp only
        exact ⟨_, rfl⟩
      | none => exact ⟨notFoundResult, rfl⟩
  · intro loader actId cfg distFolder req s sq hseq
    unfold serveWebAction
    dsimp only
    cases hact : lookupActionDef cfg (pathSegment req.urlParam 0) (pathSegment req.urlParam 1) with
    | some a =>
      simp only [hseq, hact]
      exact ⟨{ status := .num 404, headersSet := none,
               body := .obj [("error", .str "The requested resource does not exist.")] }, rfl⟩
    | none =>
      simp only [hseq, hact]
      exact ⟨{ status := .num 404, headersSet := none,
               body := .obj [("error", .str "The requested resource does not exist.")] }, rfl⟩
  · intro o m hm
    unfold httpStatusResponse
    dsimp only
    rw [hm]
    exact ⟨{ status := jsLookupV o "statusCode",
             headersSet := if jsTruthy (jsLookupV o "headers") then some (jsLookupV o "headers") else none,
             body := jsLookupV o "body" }, rfl⟩

/-- C9 amended witness: a sequence definition without an actions reference
yields null from the Sequence Invoker, and the 404 result renders without
throwing (its status code is in the table). -/
theorem dispatcher_error_containment_witness :
    invokeSequence cexSeqCtx200 (some { actions := none }) [] ⟨[], "/"⟩ =
      (none, (⟨[], "/"⟩ : ProcState), []) ∧
    ∃ r, httpStatusResponse (some notFoundResult) = .rendered r :=
  ⟨dispatcher_error_containment.2.1 cexSeqCtx200 { actions := none } [] ⟨[], "/"⟩ rfl,
   dispatcher_error_containment.2.2.2.2 notFoundResult "Not Found" rfl⟩

/-! ### C7: the raw-body transform and the raw `__ow_body` envelope field -/

def wisdomBytes : List Nat := utf8Bytes "whisper words of wisdom"

def rawAction : ActionDef := { function := "f", web := .str "raw" }

def wisdomReq : Request :=
  { urlParam := "p/raw", headers := [], query := [], method := "POST",
    contentType := some "multipart/form-data", body := .buf wisdomBytes }

/-- C7: the raw-body transform base64-encodes strings (UTF-8 bytes),
base64-encodes Buffers directly, JSON-stringifies then base64-encodes
non-empty non-Buffer objects, and turns the empty object and the empty body
into the empty string; and for a raw web action receiving a POST body under
a non-form content type, the envelope's `__ow_body` is exactly the transform
of the body. -/
theorem body_transform_contract :
    (∀ s : String, bodyTransformToRaw (.str s) = base64Encode (utf8Bytes s)) ∧
    (∀ bytes : List Nat, bodyTransformToRaw (.buf bytes) = base64Encode bytes) ∧
    (∀ o : List (String × JsVal), o ≠ [] →
      bodyTransformToRaw (.obj o) =
        base64Encode (utf8Bytes ((jsonStringify (.obj o)).getD ""))) ∧
    (bodyTransformToRaw (.obj []) = "") ∧
    (bodyTransformToRaw (.str "") = "") ∧
    (∀ (req : Request) (item : Option ContextItem) (inputs : JsObj)
      (env : List (String × String)),
      isRawWebAction item = true →
      reqIs req "application/x-www-form-urlencoded" = false →
      isPostVal (jsLookupV (baseParams req inputs env) "__ow_method") = true →
      isNullVal req.body = false →
      jsLookup (createActionParametersFromRequest req item inputs env) "__ow_body" =
        some (.str (bodyTransformToRaw req.body))) ∧
    (bodyTransformToRaw (.buf wisdomBytes) = "d2hpc3BlciB3b3JkcyBvZiB3aXNkb20=") := by
  refine ⟨fun s => rfl, ?_, ?_, rfl, rfl, ?_, rfl⟩
  · intro bytes
    cases bytes with
    | nil => rfl
    | cons b bs => rfl
  · intro o ho
    cases o with
    | nil => exact absurd rfl ho
    | cons kv rest => rfl
  · intro req item inputs env hraw hform hpost hnull
    unfold createActionParametersFromRequest
    simp only [hraw, hform, hpost, hnull, Bool.not_false, Bool.and_self, if_true,
      Bool.false_eq_true, if_false]
    rw [jsLookup_append]
    rfl

/-- C7 witness: a multipart POST body `Buffer(whisper words of wisdom)` to a
raw web action yields `__ow_body` equal to the base64 encoding of that
buffer. -/
theorem body_transform_contract_witness :
    jsLookup (createActionParametersFromRequest wisdomReq (some (.action rawAction)) [] [])
      "__ow_body" = some (.str "d2hpc3BlciB3b3JkcyBvZiB3aXNkb20=") := by
  have h := body_transform_contract.2.2.2.2.2.1 wisdomReq (some (.action rawAction)) [] []
    rfl rfl rfl rfl
  exact h.trans (by rfl)

end AppDev
